import Mathlib

/-!
# ag-kit command line: the `init` and `status` handlers of `bin/cli.js`

A shallow embedding of the two command handlers.  The handlers are glue code over
collaborators that are not part of the repository (the `path` module, `fs-extra`,
`chalk`, `inquirer`, `ora`, `console`, `process`).  Each call to a collaborator is
recorded as an `Event` of the run, in program order; the filesystem, the answer the
user gives to the confirmation prompt and the I/O conditions met by the copy are
inputs of the run (`World`).
-/

set_option autoImplicit false

namespace AgKit

/-! ## Paths (`path`) -/

/-- An absolute path, as the list of its segments below the root. -/
abbrev Path := List String

/-- One segment of a relative path applied to an absolute one: `..` goes up, `.` and
the empty segment stay, a name goes down. -/
def resolveSeg (acc : Path) (seg : String) : Path :=
  if seg = ".." then acc.dropLast
  else if seg = "." ∨ seg = "" then acc
  else acc ++ [seg]

/-- The function `path.resolve(base, rel)` for an absolute `base` and a relative `rel`
given by its segments. -/
def resolve (base : Path) (rel : List String) : Path :=
  rel.foldl resolveSeg base

/-- The function `path.dirname` on an absolute path. -/
def dirname (p : Path) : Path :=
  p.dropLast

/-- The text of an absolute path, as interpolated in a message. -/
def Path.render (p : Path) : String :=
  "/" ++ "/".intercalate p

/-! ## Filesystem (`fs-extra`) -/

/-- A filesystem entry: a regular file with its bytes, or a directory with its
named entries. -/
inductive Node where
  | file (bytes : List Nat)
  | dir (entries : List (String × Node))

/-- The contents of the locations of the filesystem: `none` where nothing exists.
A location holds a whole tree; the handlers name two locations, the bundled source
and the target, and the trees of distinct locations are independent of each other. -/
abbrev FS := Path → Option Node

/-- The function `fs.existsSync`: true for a file as for a directory. -/
def existsSync (fs : FS) (p : Path) : Bool :=
  (fs p).isSome

/-- The filesystem with the content of one location replaced. -/
def FS.set (fs : FS) (p : Path) (v : Option Node) : FS :=
  fun q => if q = p then v else fs q

/-- The first entry of a directory listing with the given name. -/
def lookup (name : String) : List (String × Node) → Option Node
  | [] => none
  | (k, c) :: rest => if k = name then some c else lookup name rest

/-- The names of a directory listing. -/
def names (es : List (String × Node)) : List String :=
  es.map Prod.fst

/-- The entries of the destination listing `ds` that the source listing `es` does
not name: the copy leaves them untouched. -/
def untouched (es ds : List (String × Node)) : List (String × Node) :=
  ds.filter (fun d => !(names es).contains d.1)

mutual
/-- Modelled from the spec: the recursive copy of `fs-extra` (not part of the
repository) on one entry, "copy directory tree, preserving structure and bytes,
overwrite-merge semantics" (§4.2 step 3, §9): a file is written over an absent or
existing file, a directory is merged entry by entry into an absent or existing
directory, and entries of the destination that the source does not have are left
untouched.  A file over a directory or a directory over a file is refused (`none`),
the case the spec expects to surface as a copy error (§4.2, edge cases). -/
def copyNode : Node → Option Node → Option Node
  | .file b, none => some (.file b)
  | .file b, some (.file _) => some (.file b)
  | .file _, some (.dir _) => none
  | .dir es, none => (copyEntries es []).map .dir
  | .dir es, some (.dir ds) => (copyEntries es ds).map (fun r => .dir (r ++ untouched es ds))
  | .dir _, some (.file _) => none
/-- Modelled from the spec: the entries of a source directory copied each onto the
entry of the same name of the destination listing `ds`. -/
def copyEntries : List (String × Node) → List (String × Node) → Option (List (String × Node))
  | [], _ => some []
  | (k, c) :: rest, ds =>
    match copyNode c (lookup k ds), copyEntries rest ds with
    | some c2, some r => some ((k, c2) :: r)
    | _, _ => none
end

/-- The entry found by following a relative path from a node. -/
def Node.find : Node → List String → Option Node
  | n, [] => some n
  | .file _, _ :: _ => none
  | .dir es, k :: p =>
    match lookup k es with
    | none => none
    | some c => c.find p

mutual
/-- A well-formed tree: no directory lists a name twice. -/
def Node.wf : Node → Bool
  | .file _ => true
  | .dir es => decide (names es).Nodup && wfEntries es
/-- Every entry of a listing is a well-formed tree. -/
def wfEntries : List (String × Node) → Bool
  | [] => true
  | (_, c) :: rest => c.wf && wfEntries rest
end

/-- Why a copy failed. -/
inductive CopyError where
  | io (detail : String)
  | conflict
  | noSource
  deriving DecidableEq, Repr

/-- The settlement of the promise returned by `fs.copy`. -/
inductive CopyResult where
  | ok
  | failed (err : CopyError)
  deriving DecidableEq, Repr

/-! ## Terminal output (`chalk`, `console`, `ora`) and prompt (`inquirer`) -/

/-- The colours of `chalk` the handlers use. -/
inductive Color where
  | blue | red | yellow | green | cyan
  deriving DecidableEq, Repr

/-- A piece of text with the colour `chalk` gave it, if any. -/
structure Span where
  color : Option Color
  text : String
  deriving DecidableEq, Repr

/-- A printed string: the concatenation of its spans. -/
abbrev Text := List Span

/-- A string literal, without colour. -/
def plain (s : String) : Text :=
  [⟨none, s⟩]

/-- The call `chalk.<color>(s)`. -/
def chalk (c : Color) (s : String) : Text :=
  [⟨some c, s⟩]

/-- The characters of a printed string, colours apart. -/
def Text.chars (t : Text) : List Char :=
  t.foldr (fun s acc => s.text.data ++ acc) []

/-- The kinds of question of `inquirer` the handlers use. -/
inductive QuestionType where
  | confirm
  deriving DecidableEq, Repr

/-- A question passed to `inquirer.prompt`. -/
structure Question where
  type : QuestionType
  name : String
  message : String
  default : Bool
  deriving DecidableEq, Repr

/-- The output streams of the process. -/
inductive StdStream where
  | stdout | stderr
  deriving DecidableEq, Repr

/-- One call of a handler to a collaborator. -/
inductive Event where
  /-- The call `console.log(text)`. -/
  | log (text : Text)
  /-- The call `console.error(text)` on a string. -/
  | error (text : Text)
  /-- The call `console.error(err)` on the error a copy was rejected with. -/
  | errorValue (err : CopyError)
  /-- The call `inquirer.prompt([q])`. -/
  | prompt (q : Question)
  /-- The call `ora(text).start()`. -/
  | spinnerStart (text : String)
  /-- The call `spinner.succeed(text)`. -/
  | spinnerSucceed (text : Text)
  /-- The call `spinner.fail(text)`. -/
  | spinnerFail (text : Text)
  /-- The call `fs.copy(src, dst)` with the settlement of its promise. -/
  | copy (src dst : Path) (result : CopyResult)
  /-- The call `process.exit(code)`. -/
  | exit (code : Nat)
  deriving DecidableEq, Repr

/-- The stream an event writes to, if it writes: `console.log` writes to standard
output, `console.error` to standard error, and the spinner of `ora` to its default
stream, standard error. -/
def Event.stream : Event → Option StdStream
  | .log _ => some .stdout
  | .error _ => some .stderr
  | .errorValue _ => some .stderr
  | .spinnerStart _ => some .stderr
  | .spinnerSucceed _ => some .stderr
  | .spinnerFail _ => some .stderr
  | .prompt _ => none
  | .copy _ _ _ => none
  | .exit _ => none

/-! ## Runs -/

/-- What the process is started in: the location of the script (`__filename`) and
the current working directory (`process.cwd()`). -/
structure Env where
  filename : Path
  cwd : Path

/-- The options `commander` parsed for `init`. -/
structure Options where
  force : Bool

/-- What a run meets outside the program. -/
structure World where
  /-- The filesystem at invocation time. -/
  fs : FS
  /-- The answer the user gives to a confirmation prompt, if asked. -/
  answer : Bool
  /-- An I/O failure that hits the copy, if any (permission denied, disk full,
  interrupted I/O), with its detail. -/
  copyFault : Option String
  /-- What a failed copy leaves at its destination (there is no rollback). -/
  residue : Option Node

/-- A finished run: the calls made, the exit code of the process and the filesystem
it leaves. -/
structure Outcome where
  events : List Event
  exitCode : Nat
  fs : FS

/-- Modelled from the spec: the call `fs.copy(src, dst)` of `fs-extra` (not part of
the repository) in a world: it fails on an I/O failure, on a missing source and on a
file/directory conflict, leaving at the destination what the world says, and
otherwise writes the merged tree at the destination. -/
def fsCopy (w : World) (src dst : Path) : CopyResult × FS :=
  match w.copyFault with
  | some detail => (.failed (.io detail), w.fs.set dst w.residue)
  | none =>
    match w.fs src with
    | none => (.failed .noSource, w.fs.set dst w.residue)
    | some s =>
      match copyNode s (w.fs dst) with
      | some n => (.ok, w.fs.set dst (some n))
      | none => (.failed .conflict, w.fs.set dst w.residue)

/-! ## The `init` handler (`cli.js` lines 25-66) -/

/-- Line 26: `path.resolve(__dirname, "../.agent")`. -/
def sourceDir (env : Env) : Path :=
  resolve (dirname env.filename) ["..", ".agent"]

/-- Line 27: `path.resolve(process.cwd(), ".agent")`. -/
def targetDir (env : Env) : Path :=
  resolve env.cwd [".agent"]

/-- Lines 39-44: the question of the overwrite prompt. -/
def overwriteQuestion : Question :=
  { type := .confirm
    name := "overwrite"
    message := "The .agent folder already exists. Do you want to overwrite it?"
    default := false }

/-- Line 29: the banner. -/
def banner : Event :=
  .log (chalk .blue "🚀 Initializing Antigravity Kit...")

/-- Lines 32-33: the two lines printed when the bundled source is missing. -/
def sourceMissingReport (env : Env) : List Event :=
  [ .error (chalk .red ("Error: Source directory not found at " ++ (sourceDir env).render)),
    .error (chalk .yellow "Make sure you have installed the package correctly.") ]

/-- Line 48: the cancellation message. -/
def cancelledMessage : Event :=
  .log (chalk .yellow "Operation cancelled.")

/-- Lines 57-61: the success report and the follow-up instructions. -/
def successReport : List Event :=
  [ .spinnerSucceed (chalk .green "Successfully initialized .agent folder!"),
    .log (plain "\nNext steps:"),
    .log (chalk .cyan "1. Read the .agent/ARCHITECTURE.md file"),
    .log (chalk .cyan "2. Configure your environment"),
    .log (chalk .cyan "3. Start using agents with your AI assistant") ]

/-- Lines 63-64: the failure report. -/
def failureReport (err : CopyError) : List Event :=
  [ .spinnerFail (chalk .red "Failed to copy .agent folder"),
    .errorValue err ]

/-- Lines 53-65: the spinner, the copy in its `try`, and the report of either
settlement.  The handler then returns, and the process ends with exit code 0. -/
def copyPhase (env : Env) (w : World) (before : List Event) : Outcome :=
  let spinner := Event.spinnerStart "Copying .agent folder..."
  match fsCopy w (sourceDir env) (targetDir env) with
  | (.ok, fs2) =>
    { events := before ++ [spinner, .copy (sourceDir env) (targetDir env) .ok] ++ successReport
      exitCode := 0
      fs := fs2 }
  | (.failed err, fs2) =>
    { events := before ++ [spinner, .copy (sourceDir env) (targetDir env) (.failed err)]
        ++ failureReport err
      exitCode := 0
      fs := fs2 }

/-- Lines 25-66: the action of `init`. -/
def initAction (env : Env) (options : Options) (w : World) : Outcome :=
  if !existsSync w.fs (sourceDir env) then
    { events := [banner] ++ sourceMissingReport env ++ [.exit 1]
      exitCode := 1
      fs := w.fs }
  else if existsSync w.fs (targetDir env) && !options.force then
    if !w.answer then
      { events := [banner, .prompt overwriteQuestion, cancelledMessage]
        exitCode := 0
        fs := w.fs }
    else
      copyPhase env w [banner, .prompt overwriteQuestion]
  else
    copyPhase env w [banner]

/-! ## The `status` handler (`cli.js` lines 71-79) -/

/-- Line 72: `path.resolve(process.cwd(), ".agent")`. -/
def statusTargetDir (env : Env) : Path :=
  resolve env.cwd [".agent"]

/-- Line 74: the installed message. -/
def installedMessage : Event :=
  .log (chalk .green "✅ Antigravity Kit is installed in this project.")

/-- Line 76: the not-installed message. -/
def notInstalledMessage : Event :=
  .log (chalk .yellow "❌ Antigravity Kit is NOT installed in this directory.")

/-- Line 77: the string of the hint, a concatenation around the coloured command. -/
def installHintText : Text :=
  plain "Run " ++ chalk .cyan "ag-kit init" ++ plain " to install."

/-- Line 77: the hint. -/
def installHint : Event :=
  .log installHintText

/-- Lines 71-79: the action of `status`. -/
def statusAction (env : Env) (fs : FS) : Outcome :=
  if existsSync fs (statusTargetDir env) then
    { events := [installedMessage], exitCode := 0, fs := fs }
  else
    { events := [notInstalledMessage, installHint], exitCode := 0, fs := fs }

/-! ## Observations on a run -/

/-- The questions the run asked, in order. -/
def Outcome.prompts (o : Outcome) : List Question :=
  o.events.filterMap (fun e => match e with | .prompt q => some q | _ => none)

/-- The copies the run invoked, in order: source, destination and settlement. -/
def Outcome.copies (o : Outcome) : List (Path × Path × CopyResult) :=
  o.events.filterMap (fun e => match e with | .copy s d r => some (s, d, r) | _ => none)

/-- What the copy phase adds to the events of the run: the spinner, the copy and the
report of its settlement. -/
def copyTrace (env : Env) (w : World) : List Event :=
  [Event.spinnerStart "Copying .agent folder...",
    Event.copy (sourceDir env) (targetDir env) (fsCopy w (sourceDir env) (targetDir env)).1] ++
  match (fsCopy w (sourceDir env) (targetDir env)).1 with
  | .ok => successReport
  | .failed err => failureReport err

/-! ## What is seen in a tree -/

/-- What is seen at a relative path below an entry: a file with its bytes, or a
directory. -/
inductive Seen where
  | file (bytes : List Nat)
  | dir
  deriving DecidableEq, Repr

/-- What is seen at a relative path below an entry, if anything. -/
def Node.seen (n : Node) (p : List String) : Option Seen :=
  match n.find p with
  | none => none
  | some (.file b) => some (.file b)
  | some (.dir _) => some .dir

/-- Two filesystems show the same thing at every relative path below every
location. -/
def FS.same (a b : FS) : Prop :=
  ∀ (q : Path) (p : List String), (a q).bind (fun n => n.seen p) = (b q).bind (fun n => n.seen p)

/-! ## Concrete runs -/

/-- The concrete process used in the examples: the package is installed under
`/pkg` and the command is run in `/home/proj`. -/
def env0 : Env :=
  { filename := ["pkg", "bin", "cli.js"], cwd := ["home", "proj"] }

/-- A small bundle: a file and a directory with a file. -/
def bundle0 : Node :=
  .dir [("ARCHITECTURE.md", .file [35, 65]), ("agents", .dir [("planner.md", .file [112])])]

/-- An `.agent` directory left by an earlier installation and edited since. -/
def installed0 : Node :=
  .dir [("notes.txt", .file [7]), ("ARCHITECTURE.md", .file [0])]

/-- A filesystem with the bundle in the package and no `.agent` in the project. -/
def fsFresh : FS :=
  fun p => if p = ["pkg", ".agent"] then some bundle0 else none

/-- A filesystem with the bundle in the package and an `.agent` directory in the
project. -/
def fsInstalled : FS :=
  fun p => if p = ["pkg", ".agent"] then some bundle0
    else if p = ["home", "proj", ".agent"] then some installed0 else none

/-- A filesystem with the bundle in the package and a regular file named `.agent` in
the project. -/
def fsRegularFile : FS :=
  fun p => if p = ["pkg", ".agent"] then some bundle0
    else if p = ["home", "proj", ".agent"] then some (.file [1]) else none

/-- A filesystem without the bundle. -/
def fsBroken : FS :=
  fun p => if p = ["home", "proj", ".agent"] then some installed0 else none

/-- A world without I/O failure. -/
def calm (fs : FS) (answer : Bool) : World :=
  { fs := fs, answer := answer, copyFault := none, residue := none }

/-! ## The copy of a tree -/

mutual
theorem copyNode_fresh : ∀ n : Node, copyNode n none = some n
  | .file b => by simp [copyNode]
  | .dir es => by simp [copyNode, copyEntries_fresh es]
theorem copyEntries_fresh : ∀ es : List (String × Node), copyEntries es [] = some es
  | [] => by simp [copyEntries]
  | (k, c) :: rest => by
    simp [copyEntries, lookup, copyNode_fresh c, copyEntries_fresh rest]
end

theorem copyEntries_cons_some {k : String} {c : Node} {rest ds r : List (String × Node)}
    (h : copyEntries ((k, c) :: rest) ds = some r) :
    ∃ c2 r2, copyNode c (lookup k ds) = some c2 ∧ copyEntries rest ds = some r2 ∧
      r = (k, c2) :: r2 := by
  rw [copyEntries] at h
  cases h1 : copyNode c (lookup k ds) with
  | none => simp [h1] at h
  | some c2 =>
    cases h2 : copyEntries rest ds with
    | none => simp [h1, h2] at h
    | some r2 =>
      simp [h1, h2] at h
      exact ⟨c2, r2, rfl, rfl, h.symm⟩

theorem names_copyEntries : ∀ (es ds r : List (String × Node)),
    copyEntries es ds = some r → names r = names es
  | [], ds, r, h => by
    simp [copyEntries] at h
    simp [← h]
  | (k, c) :: rest, ds, r, h => by
    obtain ⟨c2, r2, _, h2, rfl⟩ := copyEntries_cons_some h
    have ih := names_copyEntries rest ds r2 h2
    simp only [names, List.map_cons] at ih ⊢
    rw [ih]

theorem lookup_copyEntries : ∀ (es ds r : List (String × Node)) (k : String) (c : Node),
    copyEntries es ds = some r → lookup k es = some c →
    ∃ c2, lookup k r = some c2 ∧ copyNode c (lookup k ds) = some c2
  | [], ds, r, k, c, _, hl => by simp [lookup] at hl
  | (k1, c1) :: rest, ds, r, k, c, h, hl => by
    obtain ⟨c2, r2, h1, h2, rfl⟩ := copyEntries_cons_some h
    by_cases hk : k1 = k
    · subst hk
      simp only [lookup, if_true] at hl ⊢
      cases hl
      exact ⟨c2, rfl, h1⟩
    · simp only [lookup, if_neg hk] at hl ⊢
      exact lookup_copyEntries rest ds r2 k c h2 hl

theorem lookup_of_mem : ∀ (es : List (String × Node)) (k : String) (c : Node),
    (names es).Nodup → (k, c) ∈ es → lookup k es = some c
  | [], k, c, _, hm => by simp at hm
  | (k1, c1) :: rest, k, c, hn, hm => by
    simp only [names, List.map_cons, List.nodup_cons] at hn
    rcases List.mem_cons.mp hm with heq | hin
    · cases heq
      simp [lookup]
    · have hk : k1 ≠ k := by
        intro e
        subst e
        exact hn.1 (List.mem_map.mpr ⟨(k1, c), hin, rfl⟩)
      simp only [lookup, if_neg hk]
      exact lookup_of_mem rest k c hn.2 hin

theorem lookup_append_of_some : ∀ (a b : List (String × Node)) (k : String) (c : Node),
    lookup k a = some c → lookup k (a ++ b) = some c
  | [], b, k, c, h => by simp [lookup] at h
  | (k1, c1) :: rest, b, k, c, h => by
    by_cases hk : k1 = k
    · simp only [lookup, List.cons_append, if_pos hk] at h ⊢
      exact h
    · simp only [lookup, List.cons_append, if_neg hk] at h ⊢
      exact lookup_append_of_some rest b k c h

theorem untouched_append (es r ds : List (String × Node)) (h : names r = names es) :
    untouched es (r ++ untouched es ds) = untouched es ds := by
  unfold untouched
  rw [List.filter_append, List.filter_filter]
  have h1 : r.filter (fun d => !(names es).contains d.1) = [] := by
    rw [List.filter_eq_nil_iff]
    intro d hd
    have : d.1 ∈ names es := by
      rw [← h]
      exact List.mem_map.mpr ⟨d, hd, rfl⟩
    simp [this]
  rw [h1]
  simp

theorem untouched_self (es : List (String × Node)) : untouched es es = [] := by
  unfold untouched
  rw [List.filter_eq_nil_iff]
  intro d hd
  have : d.1 ∈ names es := List.mem_map.mpr ⟨d, hd, rfl⟩
  simp [this]

theorem copyNode_dir_some {es : List (String × Node)} {T : Option Node} {R : Node}
    (h : copyNode (.dir es) T = some R) :
    ∃ ds r, (T = none ∧ ds = [] ∨ T = some (.dir ds)) ∧ copyEntries es ds = some r ∧
      R = .dir (r ++ untouched es ds) := by
  cases T with
  | none =>
    simp only [copyNode, Option.map_eq_some'] at h
    obtain ⟨r, hr, rfl⟩ := h
    exact ⟨[], r, Or.inl ⟨rfl, rfl⟩, hr, by simp [untouched]⟩
  | some t =>
    cases t with
    | file b => simp [copyNode] at h
    | dir ds =>
      simp only [copyNode, Option.map_eq_some'] at h
      obtain ⟨r, hr, rfl⟩ := h
      exact ⟨ds, r, Or.inr rfl, hr, rfl⟩

mutual
theorem copyNode_idem : ∀ (S : Node) (T : Option Node) (R : Node),
    S.wf = true → copyNode S T = some R → copyNode S (some R) = some R
  | .file b, T, R, _, h => by
    cases T with
    | none =>
      simp [copyNode] at h
      subst h
      simp [copyNode]
    | some t =>
      cases t with
      | file b2 =>
        simp [copyNode] at h
        subst h
        simp [copyNode]
      | dir ds => simp [copyNode] at h
  | .dir es, T, R, hwf, h => by
    obtain ⟨ds, r, _, hr, rfl⟩ := copyNode_dir_some h
    simp only [Node.wf, Bool.and_eq_true, decide_eq_true_eq] at hwf
    have hn := names_copyEntries es ds r hr
    have key : copyEntries es (r ++ untouched es ds) = some r := by
      apply copyEntries_idem es ds r (r ++ untouched es ds) hwf.2 hr
      intro k c hm
      have hl := lookup_of_mem es k c hwf.1 hm
      obtain ⟨c2, h1, h2⟩ := lookup_copyEntries es ds r k c hr hl
      exact ⟨c2, lookup_append_of_some r _ k c2 h1, h2⟩
    simp only [copyNode, key, Option.map_some', untouched_append es r ds hn]
theorem copyEntries_idem : ∀ (es ds r D : List (String × Node)),
    wfEntries es = true → copyEntries es ds = some r →
    (∀ k c, (k, c) ∈ es → ∃ c2, lookup k D = some c2 ∧ copyNode c (lookup k ds) = some c2) →
    copyEntries es D = some r
  | [], ds, r, D, _, h, _ => by
    simp [copyEntries] at h ⊢
    exact h
  | (k, c) :: rest, ds, r, D, hwf, h, hD => by
    obtain ⟨c2, r2, h1, h2, rfl⟩ := copyEntries_cons_some h
    simp only [wfEntries, Bool.and_eq_true] at hwf
    obtain ⟨c3, h3, h4⟩ := hD k c (List.mem_cons_self _ _)
    have e : c3 = c2 := by
      rw [h1] at h4
      exact (Option.some.inj h4).symm
    subst e
    have i1 := copyNode_idem c (lookup k ds) c3 hwf.1 h1
    have i2 := copyEntries_idem rest ds r2 D hwf.2 h2
      (fun k2 c4 hm => hD k2 c4 (List.mem_cons_of_mem _ hm))
    simp [copyEntries, h3, i1, i2]
end

mutual
theorem copyNode_self : ∀ (S : Node), S.wf = true → copyNode S (some S) = some S
  | .file b, _ => by simp [copyNode]
  | .dir es, hwf => by
    simp only [Node.wf, Bool.and_eq_true, decide_eq_true_eq] at hwf
    have key := copyEntries_self es es hwf.2 (fun k c hm => lookup_of_mem es k c hwf.1 hm)
    simp [copyNode, key, untouched_self]
theorem copyEntries_self : ∀ (es D : List (String × Node)),
    wfEntries es = true → (∀ k c, (k, c) ∈ es → lookup k D = some c) →
    copyEntries es D = some es
  | [], D, _, _ => by simp [copyEntries]
  | (k, c) :: rest, D, hwf, hD => by
    simp only [wfEntries, Bool.and_eq_true] at hwf
    have h3 := hD k c (List.mem_cons_self _ _)
    have i1 := copyNode_self c hwf.1
    have i2 := copyEntries_self rest D hwf.2
      (fun k2 c4 hm => hD k2 c4 (List.mem_cons_of_mem _ hm))
    simp [copyEntries, h3, i1, i2]
end

/-- Every file of the source is, after a successful copy, in the result with the
same bytes. -/
theorem find_copyNode : ∀ (p : List String) (S : Node) (T : Option Node) (R : Node)
    (b : List Nat), copyNode S T = some R → S.find p = some (.file b) →
    R.find p = some (.file b)
  | [], S, T, R, b, h, hf => by
    simp only [Node.find, Option.some.injEq] at hf
    subst hf
    cases T with
    | none =>
      simp [copyNode] at h
      subst h
      simp [Node.find]
    | some t =>
      cases t with
      | file b2 =>
        simp [copyNode] at h
        subst h
        simp [Node.find]
      | dir ds => simp [copyNode] at h
  | k :: q, .file b2, T, R, b, h, hf => by simp [Node.find] at hf
  | k :: q, .dir es, T, R, b, h, hf => by
    obtain ⟨ds, r, _, hr, rfl⟩ := copyNode_dir_some h
    simp only [Node.find] at hf ⊢
    cases hl : lookup k es with
    | none => simp [hl] at hf
    | some c =>
      simp only [hl] at hf
      obtain ⟨c2, h1, h2⟩ := lookup_copyEntries es ds r k c hr hl
      rw [lookup_append_of_some r _ k c2 h1]
      exact find_copyNode q c (lookup k ds) c2 b h2 hf

theorem seen_file_cons (b : List Nat) (k : String) (q : List String) :
    (Node.file b).seen (k :: q) = none := by
  simp [Node.seen, Node.find]

theorem seen_dir_nil (es : List (String × Node)) : (Node.dir es).seen [] = some Seen.dir := by
  simp [Node.seen, Node.find]

theorem seen_dir_cons (es : List (String × Node)) (k : String) (q : List String) :
    (Node.dir es).seen (k :: q) = (lookup k es).bind (fun c => c.seen q) := by
  cases h : lookup k es <;> simp [Node.seen, Node.find, h]

theorem lookup_copyEntries_none : ∀ (es ds r : List (String × Node)) (k : String),
    copyEntries es ds = some r → lookup k es = none → lookup k r = none
  | [], ds, r, k, h, _ => by
    simp [copyEntries] at h
    subst h
    rfl
  | (k1, c1) :: rest, ds, r, k, h, hl => by
    obtain ⟨c2, r2, _, h2, rfl⟩ := copyEntries_cons_some h
    by_cases hk : k1 = k
    · simp [lookup, hk] at hl
    · simp only [lookup, if_neg hk] at hl ⊢
      exact lookup_copyEntries_none rest ds r2 k h2 hl

theorem lookup_append_of_none : ∀ (a b : List (String × Node)) (k : String),
    lookup k a = none → lookup k (a ++ b) = lookup k b
  | [], b, k, _ => rfl
  | (k1, c1) :: rest, b, k, h => by
    by_cases hk : k1 = k
    · simp [lookup, hk] at h
    · simp only [lookup, List.cons_append, if_neg hk] at h ⊢
      exact lookup_append_of_none rest b k h

theorem copyNode_file_some {b : List Nat} {T : Option Node} {R : Node}
    (h : copyNode (.file b) T = some R) : R = .file b := by
  cases T with
  | none =>
    simp [copyNode] at h
    exact h.symm
  | some t =>
    cases t with
    | file b2 =>
      simp [copyNode] at h
      exact h.symm
    | dir ds => simp [copyNode] at h

/-- Copying a source a second time onto the result of its copy changes nothing that
is seen below the destination. -/
theorem seen_copyNode_again : ∀ (p : List String) (S : Node) (T : Option Node) (R1 R2 : Node),
    copyNode S T = some R1 → copyNode S (some R1) = some R2 → R2.seen p = R1.seen p
  | p, .file b, T, R1, R2, h1, h2 => by
    rw [copyNode_file_some h1, copyNode_file_some h2]
  | [], .dir es, T, R1, R2, h1, h2 => by
    obtain ⟨ds, r1, _, _, rfl⟩ := copyNode_dir_some h1
    obtain ⟨ds2, r2, _, _, rfl⟩ := copyNode_dir_some h2
    rw [seen_dir_nil, seen_dir_nil]
  | k :: q, .dir es, T, R1, R2, h1, h2 => by
    obtain ⟨ds, r1, _, hr1, rfl⟩ := copyNode_dir_some h1
    obtain ⟨ds2, r2, hds2, hr2, rfl⟩ := copyNode_dir_some h2
    simp only [reduceCtorEq, false_and, Option.some.injEq, Node.dir.injEq, false_or] at hds2
    subst hds2
    rw [untouched_append es r1 ds (names_copyEntries es ds r1 hr1), seen_dir_cons,
      seen_dir_cons]
    cases hl : lookup k es with
    | none =>
      rw [lookup_append_of_none _ _ _ (lookup_copyEntries_none es _ r2 k hr2 hl),
        lookup_append_of_none _ _ _ (lookup_copyEntries_none es _ r1 k hr1 hl)]
    | some c =>
      obtain ⟨c1, hc1, hcopy1⟩ := lookup_copyEntries es ds r1 k c hr1 hl
      obtain ⟨c2, hc2, hcopy2⟩ := lookup_copyEntries es _ r2 k c hr2 hl
      rw [lookup_append_of_some r1 _ k c1 hc1] at hcopy2
      rw [lookup_append_of_some r2 _ k c2 hc2, lookup_append_of_some r1 _ k c1 hc1]
      simp only [Option.some_bind]
      exact seen_copyNode_again q c (lookup k ds) c1 c2 hcopy1 hcopy2

/-- Copying an entry onto itself changes nothing that is seen below it. -/
theorem seen_copyNode_self : ∀ (p : List String) (X R : Node),
    copyNode X (some X) = some R → R.seen p = X.seen p
  | p, .file b, R, h => by
    rw [copyNode_file_some h]
  | [], .dir es, R, h => by
    obtain ⟨ds, r, _, _, rfl⟩ := copyNode_dir_some h
    rw [seen_dir_nil, seen_dir_nil]
  | k :: q, .dir es, R, h => by
    obtain ⟨ds, r, hds, hr, rfl⟩ := copyNode_dir_some h
    simp only [reduceCtorEq, false_and, Option.some.injEq, Node.dir.injEq, false_or] at hds
    subst hds
    rw [untouched_self, List.append_nil, seen_dir_cons, seen_dir_cons]
    cases hl : lookup k es with
    | none => rw [lookup_copyEntries_none es _ r k hr hl]
    | some c =>
      obtain ⟨c1, hc1, hcopy1⟩ := lookup_copyEntries es _ r k c hr hl
      rw [hl] at hcopy1
      rw [hc1]
      simp only [Option.some_bind]
      exact seen_copyNode_self q c c1 hcopy1

/-! ## The runs of the handlers -/

theorem targetDir_eq (env : Env) : targetDir env = env.cwd ++ [".agent"] := by
  simp [targetDir, resolve, resolveSeg]

theorem statusTargetDir_eq (env : Env) : statusTargetDir env = env.cwd ++ [".agent"] := by
  simp [statusTargetDir, resolve, resolveSeg]

theorem fsCopy_ok {w : World} {src dst : Path} {fs2 : FS} (h : fsCopy w src dst = (.ok, fs2)) :
    w.copyFault = none ∧ ∃ S R, w.fs src = some S ∧ copyNode S (w.fs dst) = some R ∧
      fs2 = w.fs.set dst (some R) := by
  unfold fsCopy at h
  split at h
  · simp at h
  · rename_i hf
    refine ⟨hf, ?_⟩
    split at h
    · simp at h
    · rename_i S hS
      split at h
      · rename_i R hR
        simp at h
        exact ⟨S, R, hS, hR, h.symm⟩
      · simp at h

theorem copyPhase_copies (env : Env) (w : World) (before : List Event)
    (hb : ∀ e ∈ before, ∀ s d r, e ≠ Event.copy s d r) :
    (copyPhase env w before).copies =
      [(sourceDir env, targetDir env, (fsCopy w (sourceDir env) (targetDir env)).1)] := by
  have hnil : before.filterMap
      (fun e => match e with | .copy s d r => some (s, d, r) | _ => none) = [] := by
    rw [List.filterMap_eq_nil_iff]
    intro e he
    cases e <;> first | rfl | exact absurd rfl (hb _ he _ _ _)
  unfold copyPhase
  rcases hc : fsCopy w (sourceDir env) (targetDir env) with ⟨res, fs2⟩
  cases res <;>
    simp [Outcome.copies, List.filterMap_append, hnil, successReport, failureReport,
      List.filterMap_cons]

theorem copyPhase_prompts (env : Env) (w : World) (before : List Event) :
    (copyPhase env w before).prompts =
      before.filterMap (fun e => match e with | .prompt q => some q | _ => none) := by
  unfold copyPhase
  rcases hc : fsCopy w (sourceDir env) (targetDir env) with ⟨res, fs2⟩
  cases res <;>
    simp [Outcome.prompts, List.filterMap_append, successReport, failureReport,
      List.filterMap_cons]

theorem copyPhase_exitCode (env : Env) (w : World) (before : List Event) :
    (copyPhase env w before).exitCode = 0 := by
  unfold copyPhase
  rcases hc : fsCopy w (sourceDir env) (targetDir env) with ⟨res, fs2⟩
  cases res <;> simp

theorem copyPhase_fs (env : Env) (w : World) (before : List Event) :
    (copyPhase env w before).fs = (fsCopy w (sourceDir env) (targetDir env)).2 := by
  unfold copyPhase
  rcases hc : fsCopy w (sourceDir env) (targetDir env) with ⟨res, fs2⟩
  cases res <;> simp

theorem banner_not_copy : ∀ e ∈ [banner], ∀ s d r, e ≠ Event.copy s d r := by
  intro e he s d r
  simp [banner] at he
  subst he
  simp

theorem banner_prompt_not_copy :
    ∀ e ∈ [banner, Event.prompt overwriteQuestion], ∀ s d r, e ≠ Event.copy s d r := by
  intro e he s d r
  simp [banner] at he
  rcases he with he | he <;> subst he <;> simp

/-- The copies of a run of `init`, whatever its inputs. -/
theorem initAction_copies (env : Env) (options : Options) (w : World) :
    (initAction env options w).copies =
      if existsSync w.fs (sourceDir env) = true ∧
          (existsSync w.fs (targetDir env) = false ∨ options.force = true ∨ w.answer = true)
      then [(sourceDir env, targetDir env, (fsCopy w (sourceDir env) (targetDir env)).1)]
      else [] := by
  unfold initAction
  cases hs : existsSync w.fs (sourceDir env) <;>
  cases ht : existsSync w.fs (targetDir env) <;>
  cases hf : options.force <;>
  cases ha : w.answer <;>
  simp <;>
  first
    | exact copyPhase_copies env w _ banner_not_copy
    | exact copyPhase_copies env w _ banner_prompt_not_copy
    | simp [Outcome.copies, banner, sourceMissingReport, cancelledMessage]

/-- The filesystem a run of `init` leaves, whatever its inputs. -/
theorem initAction_fs (env : Env) (options : Options) (w : World) :
    (initAction env options w).fs =
      if existsSync w.fs (sourceDir env) = true ∧
          (existsSync w.fs (targetDir env) = false ∨ options.force = true ∨ w.answer = true)
      then (fsCopy w (sourceDir env) (targetDir env)).2
      else w.fs := by
  unfold initAction
  cases hs : existsSync w.fs (sourceDir env) <;>
  cases ht : existsSync w.fs (targetDir env) <;>
  cases hf : options.force <;>
  cases ha : w.answer <;>
  simp [copyPhase_fs]

/-- The questions a run of `init` asks, whatever its inputs. -/
theorem initAction_prompts (env : Env) (options : Options) (w : World) :
    (initAction env options w).prompts =
      if existsSync w.fs (sourceDir env) = true ∧ existsSync w.fs (targetDir env) = true ∧
          options.force = false
      then [overwriteQuestion] else [] := by
  unfold initAction
  cases hs : existsSync w.fs (sourceDir env) <;>
  cases ht : existsSync w.fs (targetDir env) <;>
  cases hf : options.force <;>
  cases ha : w.answer <;>
  simp <;>
  first
    | (rw [copyPhase_prompts]; simp [banner])
    | simp [Outcome.prompts, banner, sourceMissingReport, cancelledMessage]

/-- The exit code of a run of `init`, whatever its inputs: 1 when the bundled source
is missing, 0 otherwise, a failed copy included. -/
theorem initAction_exitCode (env : Env) (options : Options) (w : World) :
    (initAction env options w).exitCode =
      if existsSync w.fs (sourceDir env) = true then 0 else 1 := by
  unfold initAction
  cases hs : existsSync w.fs (sourceDir env) <;>
  cases ht : existsSync w.fs (targetDir env) <;>
  cases hf : options.force <;>
  cases ha : w.answer <;>
  simp [copyPhase_exitCode]

theorem copyPhase_events (env : Env) (w : World) (before : List Event) :
    (copyPhase env w before).events = before ++ copyTrace env w := by
  unfold copyPhase copyTrace
  rcases hc : fsCopy w (sourceDir env) (targetDir env) with ⟨res, fs2⟩
  cases res <;> simp

/-- The events of a run of `init`, whatever its inputs. -/
theorem initAction_events (env : Env) (options : Options) (w : World) :
    (initAction env options w).events =
      if existsSync w.fs (sourceDir env) = false then
        [banner] ++ sourceMissingReport env ++ [Event.exit 1]
      else if existsSync w.fs (targetDir env) = true ∧ options.force = false then
        if w.answer = false then [banner, Event.prompt overwriteQuestion, cancelledMessage]
        else [banner, Event.prompt overwriteQuestion] ++ copyTrace env w
      else [banner] ++ copyTrace env w := by
  unfold initAction
  cases hs : existsSync w.fs (sourceDir env) <;>
  cases ht : existsSync w.fs (targetDir env) <;>
  cases hf : options.force <;>
  cases ha : w.answer <;>
  simp [copyPhase_events]

theorem text_chars_chalk (c : Color) (s : String) : (chalk c s).chars = s.data := by
  simp [chalk, Text.chars]

theorem FS.set_same (fs : FS) (p : Path) (v : Option Node) : (fs.set p v) p = v := by
  simp [FS.set]

theorem FS.set_other (fs : FS) (p q : Path) (v : Option Node) (h : q ≠ p) :
    (fs.set p v) q = fs q := by
  simp [FS.set, h]

theorem FS.set_set (fs : FS) (p : Path) (v u : Option Node) :
    (fs.set p v).set p u = fs.set p u := by
  funext q
  by_cases h : q = p <;> simp [FS.set, h]

/-- A run of `init` whose copy succeeded: no I/O failure hit the copy, the source
was there, the merge of the source into the target was possible, and the run leaves
the merged tree at the target and ends with exit code 0. -/
theorem initAction_of_copy_ok (env : Env) (options : Options) (w : World)
    (hok : (sourceDir env, targetDir env, CopyResult.ok) ∈ (initAction env options w).copies) :
    ∃ S R, w.copyFault = none ∧ w.fs (sourceDir env) = some S ∧
      copyNode S (w.fs (targetDir env)) = some R ∧
      (initAction env options w).fs = w.fs.set (targetDir env) (some R) ∧
      (initAction env options w).exitCode = 0 := by
  rw [initAction_copies] at hok
  split at hok
  · rename_i hcond
    simp only [List.mem_singleton, Prod.mk.injEq, true_and] at hok
    rcases hpair : fsCopy w (sourceDir env) (targetDir env) with ⟨res, fs2⟩
    rw [hpair] at hok
    simp only at hok
    subst hok
    obtain ⟨hfault, S, R, hS, hR, hfs⟩ := fsCopy_ok hpair
    refine ⟨S, R, hfault, hS, hR, ?_, ?_⟩
    · rw [initAction_fs, if_pos hcond, hpair, hfs]
    · rw [initAction_exitCode, if_pos hcond.1]
  · simp at hok

theorem fsCopy_of_copyNode {w : World} {src dst : Path} {S R : Node}
    (hfault : w.copyFault = none) (hS : w.fs src = some S)
    (hR : copyNode S (w.fs dst) = some R) :
    fsCopy w src dst = (.ok, w.fs.set dst (some R)) := by
  unfold fsCopy
  simp [hfault, hS, hR]

/-- A run of `init` whose copy failed: the failure line of the spinner and the error
the copy was rejected with are the last events of the run, both on standard error,
and the run ends with exit code 0. -/
theorem initAction_of_copy_failed (env : Env) (options : Options) (w : World)
    (err : CopyError)
    (hfail : (sourceDir env, targetDir env, CopyResult.failed err) ∈
      (initAction env options w).copies) :
    (∃ pre, (initAction env options w).events = pre ++ failureReport err) ∧
    (∀ e ∈ failureReport err, e.stream = some StdStream.stderr) ∧
    (initAction env options w).exitCode = 0 := by
  rw [initAction_copies] at hfail
  split at hfail
  · rename_i hcond
    simp only [List.mem_singleton, Prod.mk.injEq, true_and] at hfail
    have hres : (fsCopy w (sourceDir env) (targetDir env)).1 = CopyResult.failed err :=
      hfail.symm
    refine ⟨?_, ?_, ?_⟩
    · rw [initAction_events]
      obtain ⟨hs, hrest⟩ := hcond
      cases ht : existsSync w.fs (targetDir env) <;>
      cases hf : options.force <;>
      cases ha : w.answer <;>
      simp [copyTrace, hres, hs, ht, hf, ha] at hrest ⊢ <;>
      first
        | exact ⟨[_, _, _], rfl⟩
        | exact ⟨[_, _, _, _], rfl⟩
    · intro e he
      simp only [failureReport, List.mem_cons, List.mem_singleton, List.not_mem_nil,
        or_false] at he
      rcases he with he | he <;> subst he <;> rfl
    · rw [initAction_exitCode, if_pos hcond.1]
  · simp at hfail

/-! ## The claims -/

/-- Claim C1: in every run of `init` in which the bundled source directory does not
exist, whatever the target, the force flag and the answer the user would give, the
process exits with code 1 through `process.exit(1)`, no question is asked, no copy is
invoked, the filesystem is left as it was, and the error message printed on standard
error ends with the expected source path. -/
theorem C1_source_missing_exits_one (env : Env) (options : Options) (w : World)
    (hsrc : existsSync w.fs (sourceDir env) = false) :
    (initAction env options w).exitCode = 1 ∧
    Event.exit 1 ∈ (initAction env options w).events ∧
    (initAction env options w).prompts = [] ∧
    (initAction env options w).copies = [] ∧
    (initAction env options w).fs = w.fs ∧
    ∃ t pre, Event.error t ∈ (initAction env options w).events ∧
      (Event.error t).stream = some StdStream.stderr ∧
      t.chars = pre ++ (sourceDir env).render.data := by
  refine ⟨?_, ?_, ?_, ?_, ?_, ?_⟩
  · simp [initAction_exitCode, hsrc]
  · simp [initAction_events, hsrc]
  · simp [initAction_prompts, hsrc]
  · simp [initAction_copies, hsrc]
  · simp [initAction_fs, hsrc]
  · refine ⟨chalk .red ("Error: Source directory not found at " ++ (sourceDir env).render),
      "Error: Source directory not found at ".data, ?_, rfl, ?_⟩
    · simp [initAction_events, hsrc, sourceMissingReport]
    · simp [text_chars_chalk]

/-- Claim C1 at a concrete run: the project has an `.agent` directory, the bundle is
missing, the user would answer yes. -/
theorem C1_source_missing_exits_one_witness :
    existsSync (calm fsBroken true).fs (sourceDir env0) = false ∧
    ((initAction env0 { force := false } (calm fsBroken true)).exitCode = 1 ∧
    Event.exit 1 ∈ (initAction env0 { force := false } (calm fsBroken true)).events ∧
    (initAction env0 { force := false } (calm fsBroken true)).prompts = [] ∧
    (initAction env0 { force := false } (calm fsBroken true)).copies = [] ∧
    (initAction env0 { force := false } (calm fsBroken true)).fs = (calm fsBroken true).fs ∧
    ∃ t pre, Event.error t ∈ (initAction env0 { force := false } (calm fsBroken true)).events ∧
      (Event.error t).stream = some StdStream.stderr ∧
      t.chars = pre ++ (sourceDir env0).render.data) :=
  ⟨by decide,
    C1_source_missing_exits_one env0 { force := false } (calm fsBroken true) (by decide)⟩

/-- Claim C2: in every run of `init` without force in which the source exists, the
target exists and the user declines the overwrite, no copy is invoked and the
filesystem is left as it was, the cancellation message is printed, and the run ends
with exit code 0. -/
theorem C2_declined_overwrite_changes_nothing (env : Env) (options : Options) (w : World)
    (hforce : options.force = false)
    (hsrc : existsSync w.fs (sourceDir env) = true)
    (htgt : existsSync w.fs (targetDir env) = true)
    (hno : w.answer = false) :
    (initAction env options w).copies = [] ∧
    (initAction env options w).fs = w.fs ∧
    (initAction env options w).events =
      [banner, Event.prompt overwriteQuestion, cancelledMessage] ∧
    cancelledMessage = Event.log (chalk .yellow "Operation cancelled.") ∧
    (initAction env options w).exitCode = 0 := by
  refine ⟨?_, ?_, ?_, rfl, ?_⟩
  · simp [initAction_copies, hsrc, htgt, hforce, hno]
  · simp [initAction_fs, hsrc, htgt, hforce, hno]
  · simp [initAction_events, hsrc, htgt, hforce, hno]
  · simp [initAction_exitCode, hsrc]

/-- Claim C2 at a concrete run: the project has an `.agent` directory and the user
answers no. -/
theorem C2_declined_overwrite_changes_nothing_witness :
    existsSync (calm fsInstalled false).fs (sourceDir env0) = true ∧
    existsSync (calm fsInstalled false).fs (targetDir env0) = true ∧
    ((initAction env0 { force := false } (calm fsInstalled false)).copies = [] ∧
    (initAction env0 { force := false } (calm fsInstalled false)).fs
      = (calm fsInstalled false).fs ∧
    (initAction env0 { force := false } (calm fsInstalled false)).events =
      [banner, Event.prompt overwriteQuestion, cancelledMessage] ∧
    cancelledMessage = Event.log (chalk .yellow "Operation cancelled.") ∧
    (initAction env0 { force := false } (calm fsInstalled false)).exitCode = 0) :=
  ⟨by decide, by decide,
    C2_declined_overwrite_changes_nothing env0 { force := false } (calm fsInstalled false)
      rfl (by decide) (by decide) rfl⟩

/-- Claim C3, the run that contradicts it: with a regular file named `.agent` in the
working directory, `init --force` invokes the copy once, the copy is rejected, the
failure and the error are reported on standard error, and the run ends with exit
code 0, not with a non-zero one. -/
theorem C3_copy_failure_exits_zero :
    (initAction env0 { force := true } (calm fsRegularFile false)).events =
      [ banner,
        Event.spinnerStart "Copying .agent folder...",
        Event.copy ["pkg", ".agent"] ["home", "proj", ".agent"] (.failed .conflict),
        Event.spinnerFail (chalk .red "Failed to copy .agent folder"),
        Event.errorValue .conflict ] ∧
    (Event.spinnerFail (chalk .red "Failed to copy .agent folder")).stream
      = some StdStream.stderr ∧
    (Event.errorValue CopyError.conflict).stream = some StdStream.stderr ∧
    (initAction env0 { force := true } (calm fsRegularFile false)).exitCode = 0 ∧
    (initAction env0 { force := true } (calm fsRegularFile false)).exitCode ≠ 1 := by
  decide

/-- Claim C4: in every run of `init` in which the source exists, the confirmation
question, a single yes/no question whose default answer is no, is asked exactly when
the target exists and force is not set; with force set or with the target absent
nothing is asked; a target that is a regular file counts as existing. -/
theorem C4_prompt_iff_target_exists_and_not_forced (env : Env) (options : Options)
    (w : World) (hsrc : existsSync w.fs (sourceDir env) = true) :
    (initAction env options w).prompts =
      (if existsSync w.fs (targetDir env) = true ∧ options.force = false
        then [overwriteQuestion] else []) ∧
    overwriteQuestion.type = QuestionType.confirm ∧
    overwriteQuestion.default = false ∧
    (options.force = true → (initAction env options w).prompts = []) ∧
    (w.fs (targetDir env) = none → (initAction env options w).prompts = []) ∧
    (∀ b, w.fs (targetDir env) = some (Node.file b) → options.force = false →
      (initAction env options w).prompts = [overwriteQuestion]) := by
  refine ⟨?_, rfl, rfl, ?_, ?_, ?_⟩
  · simp [initAction_prompts, hsrc]
  · intro hf
    simp [initAction_prompts, hf]
  · intro hn
    simp [initAction_prompts, existsSync, hn]
  · intro b hb hf
    have ht : existsSync w.fs (targetDir env) = true := by simp [existsSync, hb]
    simp [initAction_prompts, hsrc, ht, hf]

/-- Claim C4 at a concrete run: the target is a regular file and force is not set. -/
theorem C4_prompt_iff_target_exists_and_not_forced_witness :
    existsSync (calm fsRegularFile true).fs (sourceDir env0) = true ∧
    (initAction env0 { force := false } (calm fsRegularFile true)).prompts
      = [overwriteQuestion] :=
  ⟨by decide,
    (C4_prompt_iff_target_exists_and_not_forced env0 { force := false }
      (calm fsRegularFile true) (by decide)).2.2.2.2.2 [1] rfl rfl⟩

/-- Claim C5: in every run of `init`, the copy from the source directory to the
target directory is invoked exactly once if the source exists and the target does not
exist, or force is set, or the user confirmed the overwrite, and is not invoked
otherwise; whatever its settlement it is invoked at most once. -/
theorem C5_copy_invoked_once_or_never (env : Env) (options : Options) (w : World) :
    ((initAction env options w).copies.map (fun c => (c.1, c.2.1)) =
      if existsSync w.fs (sourceDir env) = true ∧
          (existsSync w.fs (targetDir env) = false ∨ options.force = true ∨ w.answer = true)
      then [(sourceDir env, targetDir env)] else []) ∧
    (initAction env options w).copies.length ≤ 1 := by
  rw [initAction_copies]
  split <;> simp

/-- Claim C6: in every run of `init` in which the bundled source directory exists,
the target does not exist and the copy succeeds, after the run the target exists, its
tree is the source tree (the same entries under the same names with the same bytes),
the source tree is as it was, and the run ends with exit code 0. -/
theorem C6_fresh_install_copies_source_tree (env : Env) (options : Options) (w : World)
    (S : Node)
    (hsrc : w.fs (sourceDir env) = some S)
    (htgt : w.fs (targetDir env) = none)
    (hok : (sourceDir env, targetDir env, CopyResult.ok) ∈ (initAction env options w).copies) :
    existsSync (initAction env options w).fs (targetDir env) = true ∧
    (initAction env options w).fs (targetDir env) = some S ∧
    (initAction env options w).fs (sourceDir env) = some S ∧
    (initAction env options w).exitCode = 0 := by
  obtain ⟨S2, R, _, hS, hR, hfs, hexit⟩ := initAction_of_copy_ok env options w hok
  rw [hsrc] at hS
  cases hS
  rw [htgt, copyNode_fresh] at hR
  cases hR
  have hne : sourceDir env ≠ targetDir env := by
    intro e
    rw [e, htgt] at hsrc
    cases hsrc
  refine ⟨?_, ?_, ?_, hexit⟩
  · simp [existsSync, hfs, FS.set_same]
  · simp [hfs, FS.set_same]
  · rw [hfs, FS.set_other _ _ _ _ hne, hsrc]

/-- Claim C6 at a concrete run: a first installation. -/
theorem C6_fresh_install_copies_source_tree_witness :
    (calm fsFresh false).fs (sourceDir env0) = some bundle0 ∧
    (calm fsFresh false).fs (targetDir env0) = none ∧
    (sourceDir env0, targetDir env0, CopyResult.ok) ∈
      (initAction env0 { force := false } (calm fsFresh false)).copies ∧
    (existsSync (initAction env0 { force := false } (calm fsFresh false)).fs (targetDir env0)
      = true ∧
    (initAction env0 { force := false } (calm fsFresh false)).fs (targetDir env0)
      = some bundle0 ∧
    (initAction env0 { force := false } (calm fsFresh false)).fs (sourceDir env0)
      = some bundle0 ∧
    (initAction env0 { force := false } (calm fsFresh false)).exitCode = 0) :=
  ⟨rfl, rfl, by decide,
    C6_fresh_install_copies_source_tree env0 { force := false } (calm fsFresh false) bundle0
      rfl rfl (by decide)⟩

/-- Claim C7: in every run of `init` with force in which the source exists, the
target exists, whatever it holds, and the copy succeeds, after the run every file of
the source is in the target, at the same relative path with the same bytes; a second
run with force on the filesystem the first run left, its copy succeeding, leaves a
filesystem that shows the same thing at every path; and when no directory of the
source lists a name twice, the second run copies with success unless an I/O failure
hits it, and leaves the very filesystem the first run left. -/
theorem C7_forced_install_covers_source_and_is_idempotent (env : Env) (w : World) (S : Node)
    (hsrc : w.fs (sourceDir env) = some S)
    (_htgt : existsSync w.fs (targetDir env) = true)
    (hok : (sourceDir env, targetDir env, CopyResult.ok) ∈
      (initAction env { force := true } w).copies) :
    (∃ R, (initAction env { force := true } w).fs (targetDir env) = some R ∧
      ∀ p b, S.find p = some (Node.file b) → R.find p = some (Node.file b)) ∧
    (∀ w2 : World, w2.fs = (initAction env { force := true } w).fs →
      (sourceDir env, targetDir env, CopyResult.ok) ∈
          (initAction env { force := true } w2).copies →
        FS.same (initAction env { force := true } w2).fs
          (initAction env { force := true } w).fs) ∧
    (S.wf = true → ∀ w2 : World, w2.fs = (initAction env { force := true } w).fs →
      (w2.copyFault = none → (sourceDir env, targetDir env, CopyResult.ok) ∈
        (initAction env { force := true } w2).copies) ∧
      ((sourceDir env, targetDir env, CopyResult.ok) ∈
          (initAction env { force := true } w2).copies →
        (initAction env { force := true } w2).fs =
          (initAction env { force := true } w).fs)) := by
  obtain ⟨S1, R, _, hS, hR, hfs, _⟩ := initAction_of_copy_ok env _ w hok
  rw [hsrc] at hS
  cases hS
  refine ⟨⟨R, by simp [hfs, FS.set_same], fun p b hf => find_copyNode p S _ R b hR hf⟩, ?_, ?_⟩
  · intro w2 hw2 hok2
    obtain ⟨S3, R3, _, hS3, hR3, hfs3, _⟩ := initAction_of_copy_ok env _ w2 hok2
    rw [hw2, hfs] at hS3 hR3
    rw [FS.set_same] at hR3
    have hseen : ∀ p, R3.seen p = R.seen p := by
      intro p
      by_cases hst : sourceDir env = targetDir env
      · rw [hst, FS.set_same] at hS3
        cases hS3
        exact seen_copyNode_self p _ R3 hR3
      · rw [FS.set_other _ _ _ _ hst, hsrc] at hS3
        cases hS3
        exact seen_copyNode_again p _ _ R R3 hR hR3
    rw [hfs3, hw2, hfs, FS.set_set]
    intro q p
    by_cases hq : q = targetDir env
    · subst hq
      simp [FS.set_same, hseen]
    · rw [FS.set_other _ _ _ _ hq, FS.set_other _ _ _ _ hq]
  · intro hwf w2 hw2
    have hagain : ∃ S2, w2.fs (sourceDir env) = some S2 ∧
        copyNode S2 (w2.fs (targetDir env)) = some R := by
      rw [hw2, hfs, FS.set_same]
      by_cases hst : sourceDir env = targetDir env
      · rw [← hst, hsrc, copyNode_self S hwf] at hR
        cases hR
        exact ⟨S, by rw [hst, FS.set_same], copyNode_self S hwf⟩
      · exact ⟨S, by rw [FS.set_other _ _ _ _ hst, hsrc], copyNode_idem S _ R hwf hR⟩
    obtain ⟨S2, hS2, hR2⟩ := hagain
    constructor
    · intro hcalm
      have hex : existsSync w2.fs (sourceDir env) = true := by simp [existsSync, hS2]
      rw [initAction_copies, if_pos ⟨hex, Or.inr (Or.inl rfl)⟩,
        fsCopy_of_copyNode hcalm hS2 hR2]
      simp
    · intro hok2
      obtain ⟨S3, R3, _, hS3, hR3, hfs3, _⟩ := initAction_of_copy_ok env _ w2 hok2
      rw [hS2] at hS3
      cases hS3
      rw [hR2] at hR3
      cases hR3
      rw [hfs3, hw2, hfs, FS.set_set]

/-- Claim C7 at a concrete run: a forced installation over an edited `.agent`
directory keeps the file the bundle does not have and replaces the one it has, and a
second forced installation leaves the filesystem of the first. -/
theorem C7_forced_install_covers_source_and_is_idempotent_witness :
    (calm fsInstalled false).fs (sourceDir env0) = some bundle0 ∧
    existsSync (calm fsInstalled false).fs (targetDir env0) = true ∧
    (sourceDir env0, targetDir env0, CopyResult.ok) ∈
      (initAction env0 { force := true } (calm fsInstalled false)).copies ∧
    bundle0.wf = true ∧
    (initAction env0 { force := true } (calm fsInstalled false)).fs (targetDir env0) =
      some (.dir [("ARCHITECTURE.md", .file [35, 65]),
        ("agents", .dir [("planner.md", .file [112])]), ("notes.txt", .file [7])]) ∧
    (initAction env0 { force := true }
        (calm (initAction env0 { force := true } (calm fsInstalled false)).fs false)).fs =
      (initAction env0 { force := true } (calm fsInstalled false)).fs :=
  ⟨rfl, by decide, by decide, by decide, rfl,
    ((C7_forced_install_covers_source_and_is_idempotent env0 (calm fsInstalled false) bundle0
      rfl (by decide) (by decide)).2.2 (by decide)
      (calm (initAction env0 { force := true } (calm fsInstalled false)).fs false) rfl).2
      (((C7_forced_install_covers_source_and_is_idempotent env0 (calm fsInstalled false)
        bundle0 rfl (by decide) (by decide)).2.2 (by decide)
        (calm (initAction env0 { force := true } (calm fsInstalled false)).fs false) rfl).1
        rfl)⟩

/-- Claim C8: in every run of `status`, the events are a function only of whether
the `.agent` entry of the current working directory exists at invocation time: if it
exists the installed message, the green line "✅ Antigravity Kit is installed in this
project.", is printed, otherwise the not-installed message, the yellow line
"❌ Antigravity Kit is NOT installed in this directory.", followed by a hint that
contains `ag-kit init`; in both cases the filesystem is left as it was, nothing is
copied, and the exit code is 0. -/
theorem C8_status_depends_only_on_existence (env : Env) (fs : FS) :
    statusTargetDir env = env.cwd ++ [".agent"] ∧
    ((statusAction env fs).events =
      if existsSync fs (env.cwd ++ [".agent"]) = true then [installedMessage]
      else [notInstalledMessage, installHint]) ∧
    ((statusAction env fs).events =
      if existsSync fs (env.cwd ++ [".agent"]) = true then
        [ Event.log [⟨some Color.green, "✅ Antigravity Kit is installed in this project."⟩] ]
      else
        [ Event.log
            [⟨some Color.yellow, "❌ Antigravity Kit is NOT installed in this directory."⟩],
          Event.log [⟨none, "Run "⟩,
                     ⟨some Color.cyan, "ag-kit init"⟩,
                     ⟨none, " to install."⟩] ]) ∧
    (∀ e ∈ (statusAction env fs).events, e.stream = some StdStream.stdout) ∧
    installedMessage = Event.log
        [⟨some Color.green, "✅ Antigravity Kit is installed in this project."⟩] ∧
    notInstalledMessage = Event.log
        [⟨some Color.yellow, "❌ Antigravity Kit is NOT installed in this directory."⟩] ∧
    installHint = Event.log installHintText ∧
    installHintText.chars = "Run ".data ++ "ag-kit init".data ++ " to install.".data ∧
    (statusAction env fs).fs = fs ∧
    (statusAction env fs).copies = [] ∧
    (statusAction env fs).exitCode = 0 ∧
    (∀ (env2 : Env) (fs2 : FS),
      existsSync fs2 (env2.cwd ++ [".agent"]) = existsSync fs (env.cwd ++ [".agent"]) →
      (statusAction env2 fs2).events = (statusAction env fs).events) := by
  have hev : ∀ (e : Env) (f : FS), (statusAction e f).events =
      if existsSync f (e.cwd ++ [".agent"]) = true then [installedMessage]
      else [notInstalledMessage, installHint] := by
    intro e f
    unfold statusAction
    rw [statusTargetDir_eq]
    split <;> simp_all
  refine ⟨statusTargetDir_eq env, hev env fs, ?_, ?_, rfl, rfl, rfl, ?_, ?_, ?_, ?_, ?_⟩
  · rw [hev]
    split <;> rfl
  · rw [hev]
    intro e he
    split at he
    · simp only [List.mem_singleton] at he
      subst he
      rfl
    · simp only [List.mem_cons, List.mem_singleton, List.not_mem_nil, or_false] at he
      rcases he with he | he <;> subst he <;> rfl
  · simp [installHintText, plain, chalk, Text.chars]
  · unfold statusAction
    split <;> rfl
  · unfold statusAction
    split <;> simp [Outcome.copies, installedMessage, notInstalledMessage, installHint]
  · unfold statusAction
    split <;> rfl
  · intro env2 fs2 h
    rw [hev, hev, h]

/-- Claim C9: in every run of `init`, the success report and the follow-up
instruction lines are printed, as the last events of the run, if and only if the copy
was invoked and succeeded; otherwise none of them is printed; they are constants. -/
theorem C9_success_report_iff_copy_succeeded (env : Env) (options : Options) (w : World) :
    ((∃ pre, (initAction env options w).events = pre ++ successReport) ↔
      (sourceDir env, targetDir env, CopyResult.ok) ∈ (initAction env options w).copies) ∧
    ((∃ e ∈ successReport, e ∈ (initAction env options w).events) ↔
      (sourceDir env, targetDir env, CopyResult.ok) ∈ (initAction env options w).copies) ∧
    successReport =
      [ Event.spinnerSucceed (chalk .green "Successfully initialized .agent folder!"),
        Event.log (plain "\nNext steps:"),
        Event.log (chalk .cyan "1. Read the .agent/ARCHITECTURE.md file"),
        Event.log (chalk .cyan "2. Configure your environment"),
        Event.log (chalk .cyan "3. Start using agents with your AI assistant") ] := by
  have hlast : ∀ pre : List Event, (pre ++ successReport).getLast? =
      some (Event.log (chalk .cyan "3. Start using agents with your AI assistant")) := by
    intro pre
    simp [successReport, List.getLast?_append]
  refine ⟨?_, ?_, rfl⟩
  · rw [initAction_events, initAction_copies]
    cases hs : existsSync w.fs (sourceDir env) <;>
    cases ht : existsSync w.fs (targetDir env) <;>
    cases hf : options.force <;>
    cases ha : w.answer <;>
    cases hc : (fsCopy w (sourceDir env) (targetDir env)).1 <;>
    simp [copyTrace, hc] <;>
    first
      | exact ⟨[_, _, _], rfl⟩
      | exact ⟨[_, _, _, _], rfl⟩
      | (intro pre h
         have h2 := congrArg List.getLast? h
         rw [hlast] at h2
         simp [sourceMissingReport, cancelledMessage, failureReport, chalk] at h2)
  · rw [initAction_events, initAction_copies]
    cases hs : existsSync w.fs (sourceDir env) <;>
    cases ht : existsSync w.fs (targetDir env) <;>
    cases hf : options.force <;>
    cases ha : w.answer <;>
    cases hc : (fsCopy w (sourceDir env) (targetDir env)).1 <;>
    simp [copyTrace, hc, successReport, sourceMissingReport, cancelledMessage, failureReport,
      banner, chalk, plain]

/-- Claim C10: the handlers of `init` and `status` resolve the same target path, the
current working directory joined with `.agent`, so in every working directory a run
of `status` on the filesystem left by a run of `init` whose copy succeeded prints the
installed message, the green line "✅ Antigravity Kit is installed in this project.",
and nothing else, so not the not-installed message, the yellow line
"❌ Antigravity Kit is NOT installed in this directory.". -/
theorem C10_status_after_successful_init (env : Env) (options : Options) (w : World)
    (hok : (sourceDir env, targetDir env, CopyResult.ok) ∈ (initAction env options w).copies) :
    targetDir env = statusTargetDir env ∧
    targetDir env = env.cwd ++ [".agent"] ∧
    (statusAction env (initAction env options w).fs).events = [installedMessage] ∧
    notInstalledMessage ∉ (statusAction env (initAction env options w).fs).events ∧
    (statusAction env (initAction env options w).fs).events =
      [ Event.log
          [⟨some Color.green, "✅ Antigravity Kit is installed in this project."⟩] ] ∧
    Event.log
        [⟨some Color.yellow, "❌ Antigravity Kit is NOT installed in this directory."⟩] ∉
      (statusAction env (initAction env options w).fs).events ∧
    installedMessage = Event.log
        [⟨some Color.green, "✅ Antigravity Kit is installed in this project."⟩] ∧
    notInstalledMessage = Event.log
        [⟨some Color.yellow, "❌ Antigravity Kit is NOT installed in this directory."⟩] := by
  obtain ⟨S, R, _, _, _, hfs, _⟩ := initAction_of_copy_ok env options w hok
  have hex : existsSync (initAction env options w).fs (statusTargetDir env) = true := by
    rw [hfs, statusTargetDir_eq, ← targetDir_eq]
    simp [existsSync, FS.set_same]
  have hev : (statusAction env (initAction env options w).fs).events = [installedMessage] := by
    unfold statusAction
    rw [if_pos hex]
  refine ⟨by rw [targetDir_eq, statusTargetDir_eq], targetDir_eq env, hev, ?_, ?_, ?_,
    rfl, rfl⟩
  · rw [hev]
    simp [installedMessage, notInstalledMessage, chalk]
  · rw [hev]
    rfl
  · rw [hev]
    simp [installedMessage, chalk]

/-- Claim C10 at a concrete run: `status` after a first installation. -/
theorem C10_status_after_successful_init_witness :
    (sourceDir env0, targetDir env0, CopyResult.ok) ∈
      (initAction env0 { force := false } (calm fsFresh false)).copies ∧
    (targetDir env0 = statusTargetDir env0 ∧
    targetDir env0 = env0.cwd ++ [".agent"] ∧
    (statusAction env0 (initAction env0 { force := false } (calm fsFresh false)).fs).events
      = [installedMessage] ∧
    notInstalledMessage ∉
      (statusAction env0 (initAction env0 { force := false } (calm fsFresh false)).fs).events ∧
    (statusAction env0 (initAction env0 { force := false } (calm fsFresh false)).fs).events =
      [ Event.log
          [⟨some Color.green, "✅ Antigravity Kit is installed in this project."⟩] ] ∧
    Event.log
        [⟨some Color.yellow, "❌ Antigravity Kit is NOT installed in this directory."⟩] ∉
      (statusAction env0 (initAction env0 { force := false } (calm fsFresh false)).fs).events ∧
    installedMessage = Event.log
        [⟨some Color.green, "✅ Antigravity Kit is installed in this project."⟩] ∧
    notInstalledMessage = Event.log
        [⟨some Color.yellow, "❌ Antigravity Kit is NOT installed in this directory."⟩]) :=
  ⟨by decide,
    C10_status_after_successful_init env0 { force := false } (calm fsFresh false) (by decide)⟩

end AgKit
